import Mathlib

/-!
Verification development for the `intercept` in-process HTTP interception layer.

This file is a shallow embedding of the request-matching and dispatch engine:
the pattern compiler and matcher (`src/core/utils.ts`), the matcher/dispatcher
(`findHandler` / `tryHandle` in `src/core/server.ts`), the unhandled-request
policy resolver (`resolveStrategy`), the handler registry and session state
(`server.use` / `server.resetHandlers`), and the fetch transport adapter
(`createFetchAdapter` in `src/adapters/fetch.ts`).

Modelling conventions:
- JavaScript strings are Lean `String`s; scanning is done on `List Char`
  so that every definition is structural and kernel-evaluable.
- The WHATWG `URL` platform primitive is modelled by `JSURL` together with
  `parseAbsolute` / `resolveRel`.  The model covers the fragment of URL
  behaviour the dispatcher relies on (scheme/host lowercasing, default-port
  stripping, path/search/hash splitting, resolution of path-relative inputs
  against an origin).  Dot-segment normalization and percent-encoding of the
  serialization are outside the model; a `URL`-constructor throw is modelled
  by `Option.none`.
- Asynchronous code (`async`/`await`) is flattened: handler functions are
  modelled as pure response producers, per the data model in the repository
  ("a response-producing function that receives {request, url, pathParameters,
  parsedBody} and returns a response").
- JSON values are the inductive `Json`; `JSON.stringify`-then-parse round
  trips are modelled by keeping the structured value as the response body.
-/

namespace Intercept

/-- Model of a JSON value (the bodies produced by `HttpResponse.json` and the
result of the best-effort JSON body parse `tryJson`).  Numbers are modelled as
integers; none of the verified claims involve non-integral numbers. -/
inductive Json where
  | null : Json
  | bool (b : Bool) : Json
  | num (n : Int) : Json
  | str (s : String) : Json
  | arr (elems : List Json) : Json
  | obj (fields : List (String × Json)) : Json

/-- Field lookup in a JSON object (JS property access on the parsed body).
Returns the first binding, matching how the model constructs objects. -/
def Json.lookup : Json → String → Option Json
  | .obj fields, k => fields.lookup k
  | _, _ => none

/-- The fixed HTTP verb enum (`HttpMethod` in `src/core/types.ts`). -/
inductive HttpMethod where
  | GET | POST | PUT | PATCH | DELETE | OPTIONS
  deriving DecidableEq, BEq

/-- The uppercase wire string of a verb (`req.method`). -/
def HttpMethod.toStr : HttpMethod → String
  | .GET => "GET" | .POST => "POST" | .PUT => "PUT"
  | .PATCH => "PATCH" | .DELETE => "DELETE" | .OPTIONS => "OPTIONS"

/-- Model of a `Request`: method, URL string as supplied to `fetch`, headers,
and the result of the best-effort JSON parse of the body (`tryJson` returns
`undefined` when the body is empty or malformed — modelled by `none`). -/
structure Request where
  method : HttpMethod
  url : String
  headers : List (String × String)
  bodyJson : Option Json

/-- Model of `tryJson` (`src/core/utils.ts`): best-effort JSON parse of a
cloned request body; parse failures are swallowed and become `none`. -/
def tryJson (req : Request) : Option Json := req.bodyJson

/- -------------------------------------------------------------------
Character-level utilities (kernel-evaluable stand-ins for JS string ops)
------------------------------------------------------------------- -/

/-- Split a character list at the first occurrence of one of `stops`:
returns the prefix before the stop and the suffix starting at the stop. -/
def splitAtStops (stops : List Char) : List Char → List Char × List Char
  | [] => ([], [])
  | c :: rest =>
    if c ∈ stops then ([], c :: rest)
    else
      let (a, b) := splitAtStops stops rest
      (c :: a, b)

/-- Model of the JS regex replace `/\/+/g → "/"`: collapse every run of
slashes to a single slash.  The flag records whether the previous emitted
character was a slash. -/
def collapseAux (prevSlash : Bool) : List Char → List Char
  | [] => []
  | c :: rest =>
    if c = '/' then
      if prevSlash then collapseAux true rest
      else c :: collapseAux true rest
    else c :: collapseAux false rest

/-- Model of the JS regex replace `/\/$/ → ""`: strip one trailing slash. -/
def stripTrailingSlash : List Char → List Char
  | [] => []
  | [c] => if c = '/' then [] else [c]
  | c :: rest => c :: stripTrailingSlash rest

/-- `split("/")` followed by `filter(Boolean)`: the non-empty
slash-separated segments, in order. -/
def splitSegsAux (acc : List Char) : List Char → List String
  | [] => if acc.isEmpty then [] else [String.mk acc.reverse]
  | c :: rest =>
    if c = '/' then
      if acc.isEmpty then splitSegsAux [] rest
      else String.mk acc.reverse :: splitSegsAux [] rest
    else splitSegsAux (c :: acc) rest

/-- `split("/")` keeping empty pieces (the decomposition a regex of the form
`^/s1/s2/...$` induces on the remainder of the path). -/
def splitAllAux (acc : List Char) : List Char → List String
  | [] => [String.mk acc.reverse]
  | c :: rest =>
    if c = '/' then String.mk acc.reverse :: splitAllAux [] rest
    else splitAllAux (c :: acc) rest

/-- JS `String.prototype.trim` on the character list (whitespace at both
ends removed; the inputs of interest only ever carry spaces and tabs). -/
def trimChars (cs : List Char) : List Char :=
  ((cs.dropWhile Char.isWhitespace).reverse.dropWhile Char.isWhitespace).reverse

/-- Lowercase a character list (JS `toLowerCase` on ASCII). -/
def lowerChars (cs : List Char) : List Char := cs.map Char.toLower

/-- Does `cs` start with `pre`, comparing case-insensitively? -/
def lowerHasPre : List Char → List Char → Bool
  | [], _ => true
  | _, [] => false
  | p :: ps, c :: cs => (Char.toLower c = p) && lowerHasPre ps cs

/-- Drop a literal suffix if present; otherwise return the list unchanged. -/
def dropSuffixIf (suf : List Char) (cs : List Char) : List Char :=
  if cs.reverse.take suf.length = suf.reverse then cs.take (cs.length - suf.length)
  else cs

/- -------------------------------------------------------------------
URL model (WHATWG `URL` platform primitive, http/https fragment)
------------------------------------------------------------------- -/

/-- Model of a parsed WHATWG `URL` for the special schemes `http:`/`https:`.
`protocol` includes the trailing colon and is lowercase; `host` is lowercase
and includes a non-default port; `pathname` starts with `/`; `search` is
empty or starts with `?`; `hash` is empty or starts with `#`. -/
structure JSURL where
  protocol : String
  host : String
  pathname : String
  search : String
  hash : String
  deriving DecidableEq

/-- `url.toString()` / `url.href` for URLs without userinfo. -/
def JSURL.toStr (u : JSURL) : String :=
  u.protocol ++ "//" ++ u.host ++ u.pathname ++ u.search ++ u.hash

/-- `url.origin` for the special schemes: scheme + host (+ port). -/
def JSURL.origin (u : JSURL) : String :=
  u.protocol ++ "//" ++ u.host

/-- Split the part after the authority into (pathname, search, hash).
`rest` starts with `/`, `?`, `#`, or is empty.  An empty path serializes as
`/`; a bare `?` or `#` yields an empty `search`/`hash` (WHATWG accessors). -/
def splitPathSearchHash (rest : List Char) : String × String × String :=
  let hashOf : List Char → String := fun r =>
    match r with
    | '#' :: f => if f.isEmpty then "" else "#" ++ String.mk f
    | _ => ""
  let searchHashOf : List Char → String × String := fun r =>
    match r with
    | '?' :: q =>
      let (qc, r3) := splitAtStops ['#'] q
      (if qc.isEmpty then "" else "?" ++ String.mk qc, hashOf r3)
    | _ => ("", hashOf r)
  match rest with
  | '/' :: _ =>
    let (pc, r2) := splitAtStops ['?', '#'] rest
    let (s, h) := searchHashOf r2
    (String.mk pc, s, h)
  | _ =>
    let (s, h) := searchHashOf rest
    ("/", s, h)

/-- Strip a default port (`:80` for http, `:443` for https) from the host,
as the WHATWG parser does. -/
def stripDefaultPort (protocol : String) (host : List Char) : List Char :=
  if protocol = "http:" then dropSuffixIf [':', '8', '0'] host
  else if protocol = "https:" then dropSuffixIf [':', '4', '4', '3'] host
  else host

/-- Recognize and remove a (case-insensitive) `http://` or `https://` scheme
prefix, returning the normalized lowercase protocol and the remainder. -/
def stripHttpScheme (cs : List Char) : Option (String × List Char) :=
  if lowerHasPre ("https://".toList) cs then some ("https:", cs.drop 8)
  else if lowerHasPre ("http://".toList) cs then some ("http:", cs.drop 7)
  else none

/-- Model of `new URL(input)` for absolute http/https URLs.  `none` models the
constructor throwing (e.g. an empty host).  The parser lowercases scheme and
host and strips a default port, like the platform parser. -/
def parseAbsolute (s : String) : Option JSURL :=
  match stripHttpScheme s.toList with
  | none => none
  | some (protocol, rest) =>
    let (auth, rest1) := splitAtStops ['/', '?', '#'] rest
    if auth.isEmpty then none
    else
      let host := String.mk (stripDefaultPort protocol (lowerChars auth))
      let (pathname, search, hash) := splitPathSearchHash rest1
      some { protocol, host, pathname, search, hash }

/-- The directory part of a path: everything up to and including the last
slash (used for resolving path-relative references). -/
def dirOf (cs : List Char) : List Char :=
  match cs with
  | [] => []
  | c :: rest =>
    let tail := dirOf rest
    if tail.isEmpty then (if c = '/' then [c] else [])
    else c :: tail

/-- Does the first path-ish token contain a `:` (a scheme-like relative
reference such as `mailto:x`)?  Those switch schemes in WHATWG resolution and
are outside this model. -/
def schemeLike (cs : List Char) : Bool :=
  let (tok, _) := splitAtStops ['/', '?', '#'] cs
  tok.contains ':'

/-- Model of `new URL(rel, base)` for a base with no search/hash (the bases
used by the dispatcher are validated origins, whose path is `/`).  `none`
models a constructor throw or an out-of-model input (scheme-like relative
references, protocol-relative references with an empty host). -/
def resolveRel (base : JSURL) (rel : String) : Option JSURL :=
  match rel.toList with
  | [] => some { base with hash := "" }
  | '/' :: '/' :: rest2 =>
    -- protocol-relative reference: keep the base scheme
    parseAbsolute (base.protocol ++ "//" ++ String.mk rest2)
  | '/' :: rest =>
    let (pathname, search, hash) := splitPathSearchHash ('/' :: rest)
    some { base with pathname, search, hash }
  | '?' :: _ =>
    let (_, search, hash) := splitPathSearchHash ('?' :: (rel.toList.drop 1))
    some { base with search, hash }
  | '#' :: f =>
    some { base with hash := if f.isEmpty then "" else "#" ++ String.mk f }
  | cs =>
    if schemeLike cs then none
    else
      let (pc, r2) := splitAtStops ['?', '#'] cs
      let (_, search, hash) := splitPathSearchHash r2
      some { base with
             pathname := String.mk (dirOf base.pathname.toList ++ pc),
             search, hash }

/- -------------------------------------------------------------------
Absolute-URL helpers (`src/core/server.ts` 49-63, `src/core/utils.ts` 36-50)
------------------------------------------------------------------- -/

/-- The raw regex test `/^https?:\/\//i.test(s)` (no trimming), as used at
`src/core/server.ts:129` and in the phase-2 skip at `server.ts:112`. -/
def isHttpProtoRaw (s : String) : Bool :=
  lowerHasPre ("http://".toList) s.toList || lowerHasPre ("https://".toList) s.toList

/-- `isAbsoluteUrl` (`server.ts:49-51`): the same regex applied to
`input.trim()`. -/
def isAbsoluteUrl (input : String) : Bool :=
  isHttpProtoRaw (String.mk (trimChars input.toList))

/-- `normalizeAbsoluteUrl` (`server.ts:58-63`): parse the input and
re-serialize it as lowercase protocol + lowercase host + pathname + search +
hash.  `none` models `new URL(input)` throwing; the parser already lowercases
protocol and host, so the source's `toLowerCase()` calls are absorbed. -/
def normalizeAbsoluteUrl (input : String) : Option String :=
  (parseAbsolute input).map fun u =>
    u.protocol ++ "//" ++ u.host ++ u.pathname ++ u.search ++ u.hash

/-- Compare two `normalizeAbsoluteUrl` results as the `===` at
`server.ts:89-91` does.  In the source a parse failure would throw out of
`findHandler`; stored patterns compared here always parse in practice, and
`none` is conservatively treated as "no match". -/
def normEq : Option String → Option String → Bool
  | some a, some b => a == b
  | _, _ => false

/- -------------------------------------------------------------------
`decodeURIComponent` model (platform primitive used by `matchPattern`)
------------------------------------------------------------------- -/

/-- Numeric value of an ASCII hex digit byte. -/
def hexVal (b : UInt8) : Option Nat :=
  if 48 ≤ b.toNat ∧ b.toNat ≤ 57 then some (b.toNat - 48)
  else if 65 ≤ b.toNat ∧ b.toNat ≤ 70 then some (b.toNat - 55)
  else if 97 ≤ b.toNat ∧ b.toNat ≤ 102 then some (b.toNat - 87)
  else none

/-- Percent-decode a UTF-8 byte sequence: every `%XX` becomes the byte `XX`;
a `%` not followed by two hex digits fails (JS throws `URIError`). -/
def pctDecodeBytes : List UInt8 → Option (List UInt8)
  | [] => some []
  | b :: rest =>
    if b = 37 then
      match rest with
      | h1 :: h2 :: rest2 =>
        match hexVal h1, hexVal h2 with
        | some x, some y => (pctDecodeBytes rest2).map (fun t => UInt8.ofNat (16 * x + y) :: t)
        | _, _ => none
      | _ => none
    else (pctDecodeBytes rest).map (fun t => b :: t)

/-- Model of JS `decodeURIComponent`: percent-decode the UTF-8 bytes and
re-validate as UTF-8.  `none` models the `URIError` throw. -/
def decodeURIComponent? (s : String) : Option String :=
  (pctDecodeBytes s.toUTF8.toList).bind fun bs =>
    String.fromUTF8? (ByteArray.mk bs.toArray)

/- -------------------------------------------------------------------
Pattern compiler and matcher (`src/core/utils.ts` 85-133)
------------------------------------------------------------------- -/

/-- `splitPath` (`utils.ts:85-86`): collapse repeated slashes, strip one
trailing slash, split on `/` and drop empty segments. -/
def splitPath (p : String) : List String :=
  splitSegsAux [] (stripTrailingSlash (collapseAux false p.toList))

/-- One segment of a compiled non-wildcard pattern: a literal (matched
exactly and case-insensitively) or a named parameter (`([^/]+)`). -/
inductive PatSeg where
  | lit (s : String)
  | param (name : String)
  deriving DecidableEq

/-- The compiled regex: `^/(.*)$` for the wildcard pattern, or
`^/s1/s2/...$` (case-insensitive) for a segment pattern. -/
inductive CompiledRe where
  | star
  | segs (l : List PatSeg)

/-- The result of `compilePattern`: regex, ordered capture keys, and the
wildcard flag. -/
structure Compiled where
  re : CompiledRe
  keys : List String
  isStar : Bool

/-- `compilePattern` (`utils.ts:88-109`).  Regex-metacharacter escaping in
literal segments is semantically the identity (the escaped regex matches the
literal text), so literals are kept as strings. -/
def compilePattern (pattern : String) : Compiled :=
  if pattern = "/*" then { re := .star, keys := ["_star"], isStar := true }
  else
    let segs := splitPath pattern
    { re := .segs (segs.map fun seg =>
        match seg.toList with
        | ':' :: name => .param (String.mk name)
        | _ => .lit seg)
      keys := segs.filterMap fun seg =>
        match seg.toList with
        | ':' :: name => some (String.mk name)
        | _ => none
      isStar := false }

/-- Matching the piece list of a path against the segment list of a
non-wildcard regex; returns the captured parameter pieces in order.
A literal matches its piece case-insensitively; a parameter (`[^/]+`)
matches one non-empty piece. -/
def matchSegsPieces : List PatSeg → List String → Option (List String)
  | [], [] => some []
  | .lit s :: ss, p :: ps =>
    if lowerChars s.toList = lowerChars p.toList then matchSegsPieces ss ps else none
  | .param _ :: ss, p :: ps =>
    if p.isEmpty then none else (matchSegsPieces ss ps).map (fun t => p :: t)
  | _, _ => none

/-- Execute a compiled regex against a pathname, returning the ordered list
of captures on success.  For `^/s1/../sn$` the decomposition of the remainder
into `/`-separated pieces is unique because no segment regex can match `/`;
for `^/(.*)$` the single capture is everything after the leading slash. -/
def execRe : CompiledRe → String → Option (List String)
  | .star, pathname =>
    match pathname.toList with
    | '/' :: rest => some [String.mk rest]
    | _ => none
  | .segs l, pathname =>
    match pathname.toList with
    | '/' :: rest => matchSegsPieces l (if rest.isEmpty then [] else splitAllAux [] rest)
    | _ => none

/-- The key/capture pairing loop of `matchPattern` (`utils.ts:120-130`):
`raw := m[i+1] ?? ""`, then `decodeURIComponent(raw)` falling back to the raw
value on failure.  (JS object insertion is modelled as an ordered list.) -/
def buildParams : List String → List String → List (String × String)
  | [], _ => []
  | k :: ks, [] =>
    (k, (decodeURIComponent? "").getD "") :: buildParams ks []
  | k :: ks, c :: cs =>
    (k, (decodeURIComponent? c).getD c) :: buildParams ks cs

/-- `matchPattern` (`utils.ts:111-133`). -/
def matchPattern (pattern : Compiled) (pathname : String) :
    Option (List (String × String)) :=
  match execRe pattern.re pathname with
  | none => none
  | some caps => some (buildParams pattern.keys caps)

/- -------------------------------------------------------------------
Unhandled-request policy resolver (`src/core/utils.ts` 135-145)
------------------------------------------------------------------- -/

/-- The three effective strategies. -/
inductive Strat where
  | warn | error | bypass
  deriving DecidableEq, BEq

/-- A value returned by a user decision function: one of the three strategy
strings, or anything else (`undefined` or an unrecognized value — the source
only distinguishes the three literals via `===`). -/
inductive StratRet where
  | warn | error | bypass | other
  deriving DecidableEq

/-- `OnUnhandledRequestStrategy`: a literal strategy or a per-request
decision function receiving `{request, url}`. -/
inductive StrategySpec where
  | lit (s : Strat)
  | fn (f : Request → JSURL → StratRet)

/-- `resolveStrategy` (`utils.ts:135-145`): a decision function's result is
used if it is one of the three literals, otherwise `"warn"`; a literal spec
is returned as-is; an absent spec (`opt ?? "warn"`) defaults to `"warn"`. -/
def resolveStrategy (opt : Option StrategySpec) (request : Request) (url : JSURL) :
    Strat :=
  match opt with
  | some (.fn f) =>
    match f request url with
    | .warn => .warn
    | .error => .error
    | .bypass => .bypass
    | .other => .warn
  | some (.lit s) => s
  | none => .warn

/-- The spec's description of the decision-function rule ("if it returns one
of the three valid values, use that; otherwise default to warn"), stated as a
function on returned values, for comparison with `resolveStrategy`. -/
def specRetToStrat : StratRet → Strat
  | .warn => .warn
  | .error => .error
  | .bypass => .bypass
  | .other => .warn

/- -------------------------------------------------------------------
Responses and `HttpResponse.json` (`src/http/response.ts`)
------------------------------------------------------------------- -/

/-- Model of a `Response`: status, headers, and the body kept as the
structured JSON value it was stringified from (or `Json.null` for an empty
body). -/
structure Resp where
  status : Nat
  headers : List (String × String)
  body : Json

/-- `ResponseInit`: optional status (the `Response` constructor defaults to
200) and initial headers. -/
structure RespInit where
  status : Option Nat := none
  headers : List (String × String) := []

/-- Case-insensitive `Headers.has`. -/
def hasHeader (hs : List (String × String)) (name : String) : Bool :=
  hs.any fun kv => lowerChars kv.1.toList = lowerChars name.toList

/-- `HttpResponse.json` (`src/http/response.ts:16-22`): stringify the data,
set `content-type: application/json` unless already present, and forward the
init. -/
def HttpResponseJson (data : Json) (init : RespInit) : Resp :=
  let headers :=
    if hasHeader init.headers "content-type" then init.headers
    else init.headers ++ [("content-type", "application/json")]
  { status := init.status.getD 200, headers, body := data }

/- -------------------------------------------------------------------
Handlers, registry and session state (`src/core/server.ts`)
------------------------------------------------------------------- -/

/-- The context a handler receives (`server.ts:27-32`). -/
structure HandlerCtx where
  request : Request
  url : JSURL
  params : List (String × String)
  body : Option Json

/-- `InternalHandler` (`server.ts:23-33`).  Handler functions are modelled as
pure response producers (`async` is flattened). -/
structure InternalHandler where
  method : HttpMethod
  pathPattern : String
  compiled : Compiled
  fn : HandlerCtx → Resp

/-- The handler construction performed by `server.use` (`server.ts:232-242`):
absolute-URL patterns are compiled as `"/*"` (their matching happens in
`findHandler`), relative patterns are compiled directly. -/
def mkHandler (method : HttpMethod) (path : String) (fn : HandlerCtx → Resp) :
    InternalHandler :=
  { method, pathPattern := path
    compiled := if isHttpProtoRaw path then compilePattern "/*" else compilePattern path
    fn }

/-- The process-wide session state (`server.ts:35-42` module state plus the
shared store): handler registry, active origin, unhandled-request strategy,
listening flag, attached adapters (identities abstracted as tags), and the
captured original fetch. -/
structure SessionState where
  handlers : List InternalHandler
  origin : Option String
  onUnhandledRequest : Option StrategySpec
  listening : Bool
  adapters : List Nat
  originalFetch : Option (Request → Resp)

/-- `server.resetHandlers` (`server.ts:248-250`): `_handlers.length = 0` —
clear the registry and nothing else. -/
def resetHandlers (st : SessionState) : SessionState :=
  { st with handlers := [] }

/- -------------------------------------------------------------------
Matcher / dispatcher (`src/core/server.ts` 76-163)
------------------------------------------------------------------- -/

/-- The phase-1 test applied to each handler while scanning the registry in
reverse (`server.ts:81-94`): method equal, pattern absolute (trimmed test),
and normalized pattern URL equal to the normalized request URL. -/
def absHit (method : HttpMethod) (urlStr : String) (h : InternalHandler) : Bool :=
  h.method == method && isAbsoluteUrl h.pathPattern &&
    normEq (normalizeAbsoluteUrl h.pathPattern) (normalizeAbsoluteUrl urlStr)

/-- The phase-2 test (`server.ts:105-118`): method equal, pattern not
absolute (raw regex test), and either the compiled pattern matches the
remainder or the pattern is the wildcard `"/*"`. -/
def relHit (method : HttpMethod) (remainder : String) (h : InternalHandler) : Bool :=
  h.method == method && !isHttpProtoRaw h.pathPattern &&
    ((matchPattern h.compiled remainder).isSome || h.pathPattern == "/*")

/-- Phase 2 of `findHandler` (`server.ts:96-119`): requires an active origin
whose origin equals the request URL's origin, then scans the registry from
the most recent registration for a matching relative pattern.  An unparsable
stored origin would make the source throw; stored origins are always
produced by `validateOrigin` and parse, and the model conservatively returns
no match in that branch. -/
def findHandlerRel (handlers : List InternalHandler) (activeOrigin : Option String)
    (method : HttpMethod) (url : JSURL) :
    Option (InternalHandler × List (String × String)) :=
  match activeOrigin with
  | none => none
  | some o =>
    match parseAbsolute o with
    | none => none
    | some originUrl =>
      if JSURL.origin url == JSURL.origin originUrl then
        -- `remainder` in the source is bound once; it is inlined here
        (handlers.reverse.find?
            (relHit method (if url.pathname = "" then "/" else url.pathname))).map
          fun h =>
            (h, (matchPattern h.compiled
                  (if url.pathname = "" then "/" else url.pathname)).getD [])
      else none

/-- `findHandler` (`server.ts:76-120`): phase 1 scans the registry from the
most recent registration for an absolute-URL handler with a normalized-equal
URL; phase 2 (`findHandlerRel`, only entered if phase 1 found nothing)
matches relative patterns scoped to the active origin. -/
def findHandler (handlers : List InternalHandler) (activeOrigin : Option String)
    (method : HttpMethod) (url : JSURL) :
    Option (InternalHandler × List (String × String)) :=
  match handlers.reverse.find? (absHit method (JSURL.toStr url)) with
  | some h => some (h, [])
  | none => findHandlerRel handlers activeOrigin method url

/-- `toRequestUrl` (`server.ts:128-138`): an absolute request URL is parsed
as-is; a relative one is resolved against the active origin; with no origin
the source throws (modelled by `none` — the only caller catches it). -/
def toRequestUrl (reqUrl : String) (origin : Option String) : Option JSURL :=
  if isHttpProtoRaw reqUrl then parseAbsolute reqUrl
  else
    match origin with
    | some o => (parseAbsolute o).bind fun ou => resolveRel ou reqUrl
    | none => none

/-- `TryHandleResult` (`src/core/types.ts`). -/
inductive MatchResult where
  | matched (res : Resp)
  | notMatched

/-- `tryHandle` (`server.ts:144-163`), state-passing: resolve the URL
(failures caught, yielding not-matched), find a handler, parse the body
best-effort, invoke the handler.  The source performs no writes; the state is
threaded to make that checkable. -/
def tryHandle (st : SessionState) (req : Request) : MatchResult × SessionState :=
  match toRequestUrl req.url st.origin with
  | none => (.notMatched, st)
  | some url =>
    match findHandler st.handlers st.origin req.method url with
    | none => (.notMatched, st)
    | some (h, params) =>
      let body := tryJson req
      (.matched (h.fn { request := req, url, params, body }), st)

/- -------------------------------------------------------------------
Fetch adapter (`src/adapters/fetch.ts`)
------------------------------------------------------------------- -/

/-- `urlForLogs` (`fetch.ts:15-23`): parse the request URL absolutely, and on
failure resolve it against the stable fake base `http://origin.invalid`. -/
def urlForLogs (req : Request) : Option JSURL :=
  match parseAbsolute req.url with
  | some u => some u
  | none =>
    (parseAbsolute "http://origin.invalid").bind fun base => resolveRel base req.url

/-- The observable outcome of one call to the patched `fetch`: the response,
how many times the captured original transport was invoked, and how many
warn/error diagnostics were emitted. -/
structure FetchOutcome where
  response : Resp
  originalCalls : Nat
  warnLogs : Nat
  errorLogs : Nat

/-- The `passthrough` helper (`fetch.ts:26-38`): delegate to the captured
original fetch, or synthesize a 500 JSON response if none was captured. -/
def passthrough (original : Option (Request → Resp)) (req : Request) :
    Resp × Nat :=
  match original with
  | none =>
    (HttpResponseJson (.obj [("error", .str "No original fetch available for passthrough")])
      { status := some 500 }, 0)
  | some orig => (orig req, 1)

/-- The wrapper installed over `globalThis.fetch` (`fetch.ts:45-84`): try the
core dispatcher; on no match resolve the strategy and either log + delegate
(`warn`), delegate silently (`bypass`), or log and return a 501 JSON response
describing the unhandled method/URL/headers (`error`).  `none` models the
out-of-model case in which even `urlForLogs` has no value. -/
def wrappedFetch (st : SessionState) (original : Option (Request → Resp))
    (req : Request) : Option FetchOutcome :=
  match (tryHandle st req).1 with
  | .matched res => some { response := res, originalCalls := 0, warnLogs := 0, errorLogs := 0 }
  | .notMatched =>
    match urlForLogs req with
    | none => none
    | some url =>
      match resolveStrategy st.onUnhandledRequest req url with
      | .warn =>
        let (res, n) := passthrough original req
        some { response := res, originalCalls := n, warnLogs := 1, errorLogs := 0 }
      | .bypass =>
        let (res, n) := passthrough original req
        some { response := res, originalCalls := n, warnLogs := 0, errorLogs := 0 }
      | .error =>
        let details : Json := .obj
          [("method", .str req.method.toStr),
           ("url", .str (JSURL.toStr url)),
           ("headers", .obj (req.headers.map fun kv => (kv.1, .str kv.2)))]
        some { response :=
                 HttpResponseJson (.obj [("error", .str "Unhandled request"), ("details", details)])
                   { status := some 501 }
               originalCalls := 0, warnLogs := 0, errorLogs := 1 }

/- -------------------------------------------------------------------
The spec's normalization wording (for claim C5)
------------------------------------------------------------------- -/

/-- The normalization the spec describes for patterns and paths: collapse
repeated slashes and strip one trailing slash, except at the root.  This
definition follows the spec's words and is compared against the behaviour of
`compilePattern` / `matchPattern`. -/
def specNormalize (p : String) : String :=
  let l := stripTrailingSlash (collapseAux false p.toList)
  String.mk (if l.isEmpty then ['/'] else l)

/- -------------------------------------------------------------------
Concrete sessions, handlers and requests used by witnesses and
counterexamples
------------------------------------------------------------------- -/

/-- Baseline handler used by the C1 witness. -/
def c1f1 : HandlerCtx → Resp := fun _ => { status := 200, headers := [], body := .str "A" }

/-- Overriding handler used by the C1 witness. -/
def c1f2 : HandlerCtx → Resp := fun _ => { status := 200, headers := [], body := .str "B" }

/-- Session used by the C1 witness: two `GET /thing` handlers. -/
def c1st : SessionState :=
  { handlers := [mkHandler .GET "/thing" c1f1, mkHandler .GET "/thing" c1f2]
    origin := some "http://api.test", onUnhandledRequest := some (.lit .error)
    listening := true, adapters := [], originalFetch := none }

/-- Request used by the C1 witness. -/
def c1req : Request :=
  { method := .GET, url := "http://api.test/thing", headers := [], bodyJson := none }

/-- Absolute-URL handler used by the C2 witness. -/
def c2fA : HandlerCtx → Resp :=
  fun _ => { status := 200, headers := [], body := .str "absolute" }

/-- Relative handler used by the C2 witness. -/
def c2fR : HandlerCtx → Resp :=
  fun _ => { status := 200, headers := [], body := .str "relative" }

/-- Base session used by the C2 witness. -/
def c2base : SessionState :=
  { handlers := [], origin := some "https://api.test"
    onUnhandledRequest := some (.lit .error)
    listening := true, adapters := [], originalFetch := none }

/-- Request used by the C2 witness. -/
def c2req : Request :=
  { method := .GET, url := "https://api.test/v1/charges", headers := [], bodyJson := none }

/-- Resolved URL of the C2 witness request. -/
def c2url : JSURL :=
  { protocol := "https:", host := "api.test", pathname := "/v1/charges"
    search := "", hash := "" }

/-- Relative handler used by the C3 witness. -/
def c3f : HandlerCtx → Resp := fun _ => { status := 200, headers := [], body := .null }

/-- Original transport used by the C4 witness and counterexample. -/
def c4orig : Request → Resp := fun _ => { status := 200, headers := [], body := .null }

/-- Session used by the C4 witness and counterexample: empty registry,
strategy `error`. -/
def c4st : SessionState :=
  { handlers := [], origin := none, onUnhandledRequest := some (.lit .error)
    listening := true, adapters := [], originalFetch := none }

/-- Request used by the C4 witness and counterexample. -/
def c4req : Request :=
  { method := .GET, url := "http://api.test/x"
    headers := [("accept", "application/json")], bodyJson := none }

/-- Handler used by the C9 witness. -/
def c9f : HandlerCtx → Resp := fun _ => { status := 200, headers := [], body := .bool true }

/-- Session used by the C9 witness: one absolute-URL handler, no origin. -/
def c9st : SessionState :=
  { handlers := [mkHandler .GET "https://api.test/v1/charges?status=open" c9f]
    origin := none, onUnhandledRequest := some (.lit .warn)
    listening := true, adapters := [], originalFetch := none }

/-- Request used by the C9 witness. -/
def c9req : Request :=
  { method := .GET, url := "https://api.test/v1/charges?status=open"
    headers := [], bodyJson := none }

/- -------------------------------------------------------------------
Lemmas about slash normalization and the pattern compiler
------------------------------------------------------------------- -/

/-- One-step unfolding of `splitSegsAux` on a cons cell. -/
theorem splitSegsAux_cons (acc : List Char) (c : Char) (rest : List Char) :
    splitSegsAux acc (c :: rest) =
      if c = '/' then
        (if acc.isEmpty then splitSegsAux [] rest
         else String.mk acc.reverse :: splitSegsAux [] rest)
      else splitSegsAux (c :: acc) rest := rfl

/-- Unfolding of `splitSegsAux` on the empty list. -/
theorem splitSegsAux_nil (acc : List Char) :
    splitSegsAux acc [] = if acc.isEmpty then [] else [String.mk acc.reverse] := rfl

/-- One-step unfolding of `collapseAux` on a cons cell. -/
theorem collapseAux_cons (b : Bool) (c : Char) (rest : List Char) :
    collapseAux b (c :: rest) =
      if c = '/' then
        (if b then collapseAux true rest else c :: collapseAux true rest)
      else c :: collapseAux false rest := rfl

/-- Stripping one trailing slash does not change the non-empty segments. -/
theorem splitSegsAux_strip (l : List Char) :
    ∀ acc, splitSegsAux acc (stripTrailingSlash l) = splitSegsAux acc l := by
  induction l with
  | nil => intro acc; rfl
  | cons c rest ih =>
    intro acc
    cases rest with
    | nil =>
      by_cases hc : c = '/'
      · subst hc
        show splitSegsAux acc [] = splitSegsAux acc ['/']
        rw [splitSegsAux_cons, splitSegsAux_nil, if_pos rfl]
        by_cases ha : acc.isEmpty <;> simp [ha, splitSegsAux_nil]
      · show splitSegsAux acc (stripTrailingSlash [c]) = splitSegsAux acc [c]
        rw [show stripTrailingSlash [c] = [c] from by simp [stripTrailingSlash, hc]]
    | cons c' rest' =>
      show splitSegsAux acc (c :: stripTrailingSlash (c' :: rest')) = _
      rw [splitSegsAux_cons, splitSegsAux_cons]
      by_cases hc : c = '/'
      · rw [if_pos hc, if_pos hc, ih []]
      · rw [if_neg hc, if_neg hc]
        exact ih _

/-- Collapsing runs of slashes does not change the non-empty segments.
The flag invariant: when the previous character was a slash, the
accumulator is empty. -/
theorem splitSegsAux_collapse (l : List Char) :
    ∀ (b : Bool) (acc : List Char), (b = true → acc = []) →
      splitSegsAux acc (collapseAux b l) = splitSegsAux acc l := by
  induction l with
  | nil => intro b acc _; rfl
  | cons c rest ih =>
    intro b acc hb
    rw [collapseAux_cons]
    by_cases hc : c = '/'
    · rw [if_pos hc]
      cases b with
      | true =>
        rw [hb rfl, if_pos rfl]
        subst hc
        rw [splitSegsAux_cons, if_pos rfl]
        simp only [List.isEmpty_nil, if_pos rfl]
        exact ih true [] (fun _ => rfl)
      | false =>
        rw [if_neg (by simp)]
        subst hc
        rw [splitSegsAux_cons, splitSegsAux_cons, if_pos rfl, if_pos rfl,
          ih true [] (fun _ => rfl)]
    · rw [if_neg hc]
      rw [splitSegsAux_cons, splitSegsAux_cons, if_neg hc, if_neg hc]
      exact ih false (c :: acc) (fun h => Bool.noConfusion h)

/-- `splitPath` is invariant under the spec's normalization of its input. -/
theorem splitPath_specNormalize (p : String) :
    splitPath (specNormalize p) = splitPath p := by
  have hlist : (specNormalize p).toList =
      (if (stripTrailingSlash (collapseAux false p.toList)).isEmpty then ['/']
       else stripTrailingSlash (collapseAux false p.toList)) := rfl
  unfold splitPath
  rw [hlist]
  by_cases h : (stripTrailingSlash (collapseAux false p.toList)).isEmpty
  · rw [if_pos h]
    rw [List.isEmpty_iff] at h
    rw [h]
    rfl
  · rw [if_neg h]
    rw [splitSegsAux_strip, splitSegsAux_collapse _ false [] (fun _ => rfl)]

/-- `"/*"` is a fixed point of the spec's normalization. -/
theorem specNormalize_star : specNormalize "/*" = "/*" := by decide

/-- From a `Bool` being `false`, it is not `true`. -/
theorem neg_of_eq_false {b : Bool} (h : b = false) : ¬ b = true := by
  simp [h]

/-- Phase 2 when the stored origin does not parse (the source would throw;
this branch is unreachable for origins produced by `validateOrigin`). -/
theorem findHandlerRel_none_parse (handlers : List InternalHandler) (o : String)
    (m : HttpMethod) (u : JSURL) (hpo : parseAbsolute o = none) :
    findHandlerRel handlers (some o) m u = none := by
  unfold findHandlerRel
  simp only [hpo]

/-- Reduction of phase 2 once the stored origin is parsed. -/
theorem findHandlerRel_eq (handlers : List InternalHandler) (o : String) (ou : JSURL)
    (m : HttpMethod) (u : JSURL) (hpo : parseAbsolute o = some ou) :
    findHandlerRel handlers (some o) m u =
      (if JSURL.origin u == JSURL.origin ou then
        (handlers.reverse.find?
            (relHit m (if u.pathname = "" then "/" else u.pathname))).map
          (fun h => (h, (matchPattern h.compiled
                (if u.pathname = "" then "/" else u.pathname)).getD []))
      else none) := by
  unfold findHandlerRel
  simp only [hpo]

/-- Phase 2 on an empty registry never yields a handler. -/
theorem findHandlerRel_nil (o : Option String) (m : HttpMethod) (u : JSURL) :
    findHandlerRel [] o m u = none := by
  cases o with
  | none => rfl
  | some o' =>
    cases hp : parseAbsolute o' with
    | none => exact findHandlerRel_none_parse _ _ _ _ hp
    | some ou =>
      rw [findHandlerRel_eq _ _ _ _ _ hp]
      split <;> rfl

/-- An empty registry never yields a handler. -/
theorem findHandler_nil (o : Option String) (m : HttpMethod) (u : JSURL) :
    findHandler [] o m u = none := by
  unfold findHandler
  simp only [List.reverse_nil, List.find?_nil]
  exact findHandlerRel_nil o m u

/-- Derived `BEq` on the verb enum is reflexive. -/
theorem HttpMethod.beq_self (m : HttpMethod) : (m == m) = true := by
  cases m <;> rfl

/-- `tryHandle` when URL resolution fails. -/
theorem tryHandle_none (st : SessionState) (req : Request)
    (hu : toRequestUrl req.url st.origin = none) :
    (tryHandle st req).1 = .notMatched := by
  unfold tryHandle
  rw [hu]

/-- `tryHandle` when URL resolution succeeds, expressed through
`findHandler`. -/
theorem tryHandle_some (st : SessionState) (req : Request) (u : JSURL)
    (hu : toRequestUrl req.url st.origin = some u) :
    (tryHandle st req).1 =
      (match findHandler st.handlers st.origin req.method u with
       | none => .notMatched
       | some (h, params) =>
         .matched (h.fn { request := req, url := u, params := params, body := tryJson req })) := by
  unfold tryHandle
  rw [hu]
  show (match findHandler st.handlers st.origin req.method u with
        | none => (MatchResult.notMatched, st)
        | some (h, params) =>
          (MatchResult.matched
            (h.fn { request := req, url := u, params := params, body := tryJson req }), st)).1 = _
  cases findHandler st.handlers st.origin req.method u with
  | none => rfl
  | some hp => cases hp with | mk h params => rfl

/-- In a registry of exactly two handlers sharing method, pattern and
compiled matcher, `findHandler` either finds nothing or selects the
later-registered one. -/
theorem findHandler_pair (h₁ h₂ : InternalHandler) (o : Option String)
    (m : HttpMethod) (u : JSURL)
    (hm : h₁.method = h₂.method) (hp : h₁.pathPattern = h₂.pathPattern)
    (hc : h₁.compiled = h₂.compiled) :
    findHandler [h₁, h₂] o m u = none ∨
    ∃ params, findHandler [h₁, h₂] o m u = some (h₂, params) := by
  have habs : absHit m (JSURL.toStr u) h₁ = absHit m (JSURL.toStr u) h₂ := by
    unfold absHit
    rw [hm, hp]
  have hrel : ∀ rem, relHit m rem h₁ = relHit m rem h₂ := by
    intro rem
    unfold relHit
    rw [hm, hp, hc]
  unfold findHandler
  rw [show ([h₁, h₂] : List InternalHandler).reverse = [h₂, h₁] from rfl]
  cases hb : absHit m (JSURL.toStr u) h₂ with
  | true =>
    rw [List.find?_cons_of_pos _ hb]
    exact Or.inr ⟨[], rfl⟩
  | false =>
    rw [List.find?_cons_of_neg _ (neg_of_eq_false hb),
      List.find?_cons_of_neg _ (neg_of_eq_false (habs.trans hb)), List.find?_nil]
    show findHandlerRel [h₁, h₂] o m u = none ∨
      ∃ params, findHandlerRel [h₁, h₂] o m u = some (h₂, params)
    cases o with
    | none => exact Or.inl rfl
    | some o' =>
      cases hpo : parseAbsolute o' with
      | none => exact Or.inl (findHandlerRel_none_parse _ _ _ _ hpo)
      | some ou =>
        rw [findHandlerRel_eq _ _ _ _ _ hpo]
        by_cases he : (JSURL.origin u == JSURL.origin ou) = true
        · rw [if_pos he,
            show ([h₁, h₂] : List InternalHandler).reverse = [h₂, h₁] from rfl]
          cases hb2 : relHit m (if u.pathname = "" then "/" else u.pathname) h₂ with
          | true =>
            rw [List.find?_cons_of_pos _ hb2]
            exact Or.inr ⟨_, rfl⟩
          | false =>
            rw [List.find?_cons_of_neg _ (neg_of_eq_false hb2),
              List.find?_cons_of_neg _ (neg_of_eq_false ((hrel _).trans hb2)),
              List.find?_nil]
            exact Or.inl rfl
        · rw [if_neg he]
          exact Or.inl rfl

/- -------------------------------------------------------------------
Claim C1 (last-registered handler wins for an identical (method, pattern))
------------------------------------------------------------------- -/

/-- C1: with two handlers registered for the same `(method, pattern)`, a
request that is dispatched and matches is answered by the second
(more recently registered) handler — the registry is scanned from the end,
so the newer registration shadows the older one. -/
theorem c1_last_wins_same_pattern
    (st : SessionState) (m : HttpMethod) (p : String)
    (f₁ f₂ : HandlerCtx → Resp) (req : Request)
    (hreg : st.handlers = [mkHandler m p f₁, mkHandler m p f₂])
    (hmatch : ∃ r, (tryHandle st req).1 = .matched r) :
    ∃ u params, (tryHandle st req).1 =
      .matched (f₂ { request := req, url := u, params := params, body := tryJson req }) := by
  obtain ⟨r, hr⟩ := hmatch
  cases hu : toRequestUrl req.url st.origin with
  | none =>
    rw [tryHandle_none st req hu] at hr
    exact absurd hr (by simp)
  | some u =>
    rw [tryHandle_some st req u hu, hreg] at hr ⊢
    rcases findHandler_pair (mkHandler m p f₁) (mkHandler m p f₂) st.origin
        req.method u rfl rfl rfl with hnone | ⟨params, hsome⟩
    · rw [hnone] at hr
      exact absurd hr (by simp)
    · rw [hsome]
      exact ⟨u, params, rfl⟩

/- -------------------------------------------------------------------
Claim C2 (an absolute-URL handler beats a relative one, either order)
------------------------------------------------------------------- -/

/-- C2: when the registry holds an absolute-URL handler and a
relative/wildcard handler that both apply to the same effective request URL
and method, dispatch selects the absolute handler regardless of which of the
two was registered first: phase 1 only considers absolute patterns and runs
before any relative matching. -/
theorem c2_absolute_beats_relative
    (st : SessionState) (m : HttpMethod) (pA pR : String)
    (fA fR : HandlerCtx → Resp) (req : Request) (u : JSURL)
    (n o : String) (ou : JSURL)
    (hm : req.method = m)
    (hurl : toRequestUrl req.url st.origin = some u)
    (hAabs : isAbsoluteUrl pA = true)
    (hAn : normalizeAbsoluteUrl pA = some n)
    (hun : normalizeAbsoluteUrl (JSURL.toStr u) = some n)
    (hRrel : isAbsoluteUrl pR = false)
    (horig : st.origin = some o)
    (hop : parseAbsolute o = some ou)
    (hoe : JSURL.origin u = JSURL.origin ou)
    (hRapp : (matchPattern (compilePattern pR)
        (if u.pathname = "" then "/" else u.pathname)).isSome = true ∨ pR = "/*") :
    (tryHandle { st with
        handlers := [mkHandler m pA fA, mkHandler m pR fR] } req).1 =
      .matched (fA { request := req, url := u, params := [], body := tryJson req }) ∧
    (tryHandle { st with
        handlers := [mkHandler m pR fR, mkHandler m pA fA] } req).1 =
      .matched (fA { request := req, url := u, params := [], body := tryJson req }) := by
  have habsA : absHit req.method (JSURL.toStr u) (mkHandler m pA fA) = true := by
    simp [absHit, mkHandler, hm, hAabs, hAn, hun, normEq, HttpMethod.beq_self]
  have habsR : absHit req.method (JSURL.toStr u) (mkHandler m pR fR) = false := by
    simp [absHit, mkHandler, hRrel]
  have h1 : findHandler [mkHandler m pA fA, mkHandler m pR fR] st.origin req.method u
      = some (mkHandler m pA fA, []) := by
    unfold findHandler
    rw [show [mkHandler m pA fA, mkHandler m pR fR].reverse
        = [mkHandler m pR fR, mkHandler m pA fA] from rfl,
      List.find?_cons_of_neg _ (neg_of_eq_false habsR), List.find?_cons_of_pos _ habsA]
  have h2 : findHandler [mkHandler m pR fR, mkHandler m pA fA] st.origin req.method u
      = some (mkHandler m pA fA, []) := by
    unfold findHandler
    rw [show [mkHandler m pR fR, mkHandler m pA fA].reverse
        = [mkHandler m pA fA, mkHandler m pR fR] from rfl,
      List.find?_cons_of_pos _ habsA]
  constructor
  · rw [tryHandle_some
        { st with handlers := [mkHandler m pA fA, mkHandler m pR fR] } req u hurl]
    dsimp only
    rw [h1]
    rfl
  · rw [tryHandle_some
        { st with handlers := [mkHandler m pR fR, mkHandler m pA fA] } req u hurl]
    dsimp only
    rw [h2]
    rfl

/- -------------------------------------------------------------------
Claim C3 (origin mismatch: no relative handler can be selected)
------------------------------------------------------------------- -/

/-- C3: when the resolved request URL's origin differs from the active
origin, `findHandler` can only return an absolute-URL handler — the phase-2
origin guard returns "no match" before any relative pattern is consulted,
even if a registered relative pattern syntactically matches the path. -/
theorem c3_origin_mismatch_no_relative_match
    (handlers : List InternalHandler) (o : String) (ou : JSURL)
    (m : HttpMethod) (u : JSURL)
    (hop : parseAbsolute o = some ou)
    (hne : JSURL.origin u ≠ JSURL.origin ou) :
    (findHandler handlers (some o) m u).all
      (fun hp => isAbsoluteUrl hp.1.pathPattern) = true := by
  unfold findHandler
  cases hf : handlers.reverse.find? (absHit m (JSURL.toStr u)) with
  | some h =>
    have hpred := List.find?_some hf
    unfold absHit at hpred
    simp only [Bool.and_eq_true] at hpred
    simp [hpred.1.2]
  | none =>
    show (findHandlerRel handlers (some o) m u).all
      (fun hp => isAbsoluteUrl hp.1.pathPattern) = true
    rw [findHandlerRel_eq _ _ _ _ _ hop]
    have hcond : ¬ ((JSURL.origin u == JSURL.origin ou) = true) := by
      simp [hne]
    rw [if_neg hcond]
    rfl

/- -------------------------------------------------------------------
Claim C9 (absolute matching never consults the active origin)
------------------------------------------------------------------- -/

/-- C9: a request with an absolute URL that normalizes equal to a registered
absolute-URL handler's pattern (same method) is matched by `tryHandle` even
with no active origin set: phase 1 reads only the registry and the request
URL. -/
theorem c9_absolute_match_ignores_origin
    (st : SessionState) (req : Request) (u : JSURL) (n : String)
    (hor : st.origin = none)
    (habs : isHttpProtoRaw req.url = true)
    (hpu : parseAbsolute req.url = some u)
    (hun : normalizeAbsoluteUrl (JSURL.toStr u) = some n)
    (hex : ∃ h ∈ st.handlers, h.method = req.method ∧
      isAbsoluteUrl h.pathPattern = true ∧
      normalizeAbsoluteUrl h.pathPattern = some n) :
    ∃ r, (tryHandle st req).1 = .matched r := by
  have hu : toRequestUrl req.url st.origin = some u := by
    simp [toRequestUrl, habs, hpu]
  obtain ⟨h, hmem, hme, hab, hnorm⟩ := hex
  have hpred : absHit req.method (JSURL.toStr u) h = true := by
    unfold absHit
    rw [hme, hab, hnorm, hun]
    simp [normEq, HttpMethod.beq_self]
  have hsome : (st.handlers.reverse.find? (absHit req.method (JSURL.toStr u))).isSome := by
    rw [List.find?_isSome]
    exact ⟨h, List.mem_reverse.mpr hmem, hpred⟩
  cases hf : st.handlers.reverse.find? (absHit req.method (JSURL.toStr u)) with
  | none =>
    rw [hf] at hsome
    simp at hsome
  | some h' =>
    refine ⟨h'.fn { request := req, url := u, params := [], body := tryJson req }, ?_⟩
    rw [tryHandle_some st req u hu]
    unfold findHandler
    rw [hf]

/-- Witness for C1: registering `GET /thing` twice and dispatching a
matching request yields the second handler's response. -/
theorem c1_witness :
    ∃ u params, (tryHandle c1st c1req).1 =
      .matched (c1f2 { request := c1req, url := u, params := params, body := tryJson c1req }) :=
  c1_last_wins_same_pattern c1st .GET "/thing" c1f1 c1f2 c1req rfl ⟨_, rfl⟩

/-- Witness for C2: the absolute handler answers in both registration
orders. -/
theorem c2_witness :
    (tryHandle { c2base with handlers :=
        [mkHandler .GET "https://api.test/v1/charges" c2fA,
         mkHandler .GET "/v1/charges" c2fR] } c2req).1 =
      .matched (c2fA { request := c2req, url := c2url, params := [], body := tryJson c2req }) ∧
    (tryHandle { c2base with handlers :=
        [mkHandler .GET "/v1/charges" c2fR,
         mkHandler .GET "https://api.test/v1/charges" c2fA] } c2req).1 =
      .matched (c2fA { request := c2req, url := c2url, params := [], body := tryJson c2req }) :=
  c2_absolute_beats_relative c2base .GET "https://api.test/v1/charges" "/v1/charges"
    c2fA c2fR c2req c2url "https://api.test/v1/charges" "https://api.test"
    { protocol := "https:", host := "api.test", pathname := "/", search := "", hash := "" }
    rfl rfl rfl rfl rfl rfl rfl rfl rfl (Or.inl rfl)

/-- Witness for C3: a relative `GET /thing` handler whose pattern matches the
request path is still not selected when the origins differ. -/
theorem c3_witness :
    (findHandler [mkHandler .GET "/thing" c3f] (some "http://other.test") .GET
        { protocol := "http:", host := "api.test", pathname := "/thing"
          search := "", hash := "" }).all
      (fun hp => isAbsoluteUrl hp.1.pathPattern) = true :=
  c3_origin_mismatch_no_relative_match [mkHandler .GET "/thing" c3f] "http://other.test"
    { protocol := "http:", host := "other.test", pathname := "/", search := "", hash := "" }
    .GET
    { protocol := "http:", host := "api.test", pathname := "/thing", search := "", hash := "" }
    rfl (by decide)

/-- Witness for C9: with no active origin an absolute-URL registration still
matches its exact URL (query included). -/
theorem c9_witness : ∃ r, (tryHandle c9st c9req).1 = .matched r :=
  c9_absolute_match_ignores_origin c9st c9req
    { protocol := "https:", host := "api.test", pathname := "/v1/charges"
      search := "?status=open", hash := "" }
    "https://api.test/v1/charges?status=open"
    rfl rfl rfl rfl
    ⟨mkHandler .GET "https://api.test/v1/charges?status=open" c9f,
      List.mem_singleton.mpr rfl, rfl, rfl, rfl⟩

/- -------------------------------------------------------------------
Claim C4 (fetch adapter, "error" strategy on an unhandled request)
------------------------------------------------------------------- -/

/-- C4, amended: for an unhandled request under the effective strategy
`error`, the patched fetch synthesizes a 501 JSON response (server-error
class, not client-error class as the claim stated) whose body carries the
request's method and full URL, emits one error diagnostic, and never invokes
the captured original transport. -/
theorem c4_error_strategy_synthesizes_501
    (st : SessionState) (original : Option (Request → Resp))
    (req : Request) (url : JSURL)
    (hnm : (tryHandle st req).1 = .notMatched)
    (hurl : urlForLogs req = some url)
    (hstrat : resolveStrategy st.onUnhandledRequest req url = .error) :
    ∃ r : Resp,
      wrappedFetch st original req =
        some { response := r, originalCalls := 0, warnLogs := 0, errorLogs := 1 } ∧
      r.status = 501 ∧ 500 ≤ r.status ∧ r.status < 600 ∧
      (r.body.lookup "details").bind (fun d => d.lookup "method") =
        some (.str req.method.toStr) ∧
      (r.body.lookup "details").bind (fun d => d.lookup "url") =
        some (.str (JSURL.toStr url)) := by
  refine ⟨HttpResponseJson
      (.obj [("error", .str "Unhandled request"),
        ("details", .obj
          [("method", .str req.method.toStr),
           ("url", .str (JSURL.toStr url)),
           ("headers", .obj (req.headers.map fun kv => (kv.1, .str kv.2)))])])
      { status := some 501 }, ?_, rfl,
    by show (500 : Nat) ≤ 501; decide, by show (501 : Nat) < 600; decide, rfl, rfl⟩
  unfold wrappedFetch
  rw [hnm, hurl]
  dsimp only
  rw [hstrat]

/-- C4, counterexample: the claim says the synthesized response's status is
in the client-error class; at this concrete unhandled request the status is
501, which is not in `[400, 500)`. -/
theorem c4_counterexample :
    (wrappedFetch c4st (some c4orig) c4req).map (fun o => o.response.status) = some 501 ∧
    ¬ ∃ o, wrappedFetch c4st (some c4orig) c4req = some o ∧
        400 ≤ o.response.status ∧ o.response.status < 500 := by
  refine ⟨rfl, ?_⟩
  rintro ⟨o, ho, -, hlt⟩
  have h0 : (wrappedFetch c4st (some c4orig) c4req).map (fun o => o.response.status) =
      some 501 := rfl
  rw [ho] at h0
  simp only [Option.map_some'] at h0
  have h5 : o.response.status = 501 := Option.some.inj h0
  omega

/-- Witness for C4 (amended) at the concrete unhandled request. -/
theorem c4_witness :
    ∃ r : Resp,
      wrappedFetch c4st (some c4orig) c4req =
        some { response := r, originalCalls := 0, warnLogs := 0, errorLogs := 1 } ∧
      r.status = 501 ∧ 500 ≤ r.status ∧ r.status < 600 ∧
      (r.body.lookup "details").bind (fun d => d.lookup "method") = some (.str "GET") ∧
      (r.body.lookup "details").bind (fun d => d.lookup "url") =
        some (.str "http://api.test/x") :=
  c4_error_strategy_synthesizes_501 c4st (some c4orig) c4req
    { protocol := "http:", host := "api.test", pathname := "/x", search := "", hash := "" }
    rfl rfl rfl

/- -------------------------------------------------------------------
Claim C5 (pattern/path normalization)
------------------------------------------------------------------- -/

/-- C5, counterexample: the claim states that matching a pattern against a
path equals matching the normalized pattern against the normalized path.
At pattern `"/a"` and path `"/a/"` the left side is no-match (the compiled
regex `^/a$` does not match `"/a/"`) while the right side matches: the code
normalizes only the pattern (at compile time), never the request path. -/
theorem c5_counterexample :
    matchPattern (compilePattern "/a") "/a/" = none ∧
    matchPattern (compilePattern (specNormalize "/a")) (specNormalize "/a/") =
      some [] := by
  constructor <;> rfl

/-- C5, amended: normalization (collapse repeated slashes, strip one trailing
slash, except root) is applied to the pattern only.  For every pattern that
is the wildcard `"/*"` or does not normalize to it, compiling the normalized
pattern gives the same compiled matcher, hence matching any raw path is
unaffected; the request path itself is not normalized before matching. -/
theorem c5_pattern_normalization (p : String)
    (h : p = "/*" ∨ specNormalize p ≠ "/*") :
    compilePattern (specNormalize p) = compilePattern p ∧
    ∀ s, matchPattern (compilePattern (specNormalize p)) s =
      matchPattern (compilePattern p) s := by
  have hc : compilePattern (specNormalize p) = compilePattern p := by
    by_cases hp : p = "/*"
    · rw [hp, specNormalize_star]
    · have hq : specNormalize p ≠ "/*" := h.resolve_left hp
      unfold compilePattern
      rw [if_neg hp, if_neg hq, splitPath_specNormalize]
  exact ⟨hc, fun s => by rw [hc]⟩

/-- Witness for C5 at a pattern with a trailing slash and a parameter. -/
theorem c5_witness :
    compilePattern (specNormalize "/users/:id/") = compilePattern "/users/:id/" ∧
    ∀ s, matchPattern (compilePattern (specNormalize "/users/:id/")) s =
      matchPattern (compilePattern "/users/:id/") s :=
  c5_pattern_normalization "/users/:id/" (Or.inr (by decide))

/- -------------------------------------------------------------------
Claim C6 (strategy resolution)
------------------------------------------------------------------- -/

/-- C6: `resolveStrategy` returns a literal strategy specification as-is;
for a decision function it uses the function's return value when it is one
of the three valid values and defaults to `warn` otherwise (including when
the function returns nothing), as captured by `specRetToStrat`. -/
theorem c6_resolve_strategy (req : Request) (url : JSURL) :
    (∀ s : Strat, resolveStrategy (some (.lit s)) req url = s) ∧
    (∀ f : Request → JSURL → StratRet,
      resolveStrategy (some (.fn f)) req url = specRetToStrat (f req url)) := by
  refine ⟨fun s => rfl, fun f => ?_⟩
  cases hfr : f req url <;> simp [resolveStrategy, specRetToStrat, hfr]

/- -------------------------------------------------------------------
Claim C7 (relative URL with no origin: caught, not thrown)
------------------------------------------------------------------- -/

/-- C7: for a request with a relative URL while no active origin is set,
`tryHandle` returns not-matched.  The `toRequestUrl` throw is modelled by
`none`, and `tryHandle`'s catch maps it to `.notMatched`; `tryHandle` is a
total function, so no exception escapes to the caller. -/
theorem c7_relative_url_without_origin_not_matched
    (st : SessionState) (req : Request)
    (hor : st.origin = none) (hrel : isHttpProtoRaw req.url = false) :
    (tryHandle st req).1 = .notMatched := by
  simp [tryHandle, toRequestUrl, hor, hrel]

/-- Witness for C7: a relative `/todos` request with no origin set. -/
theorem c7_witness :
    (tryHandle
        { handlers := [], origin := none, onUnhandledRequest := some (.lit .warn),
          listening := true, adapters := [], originalFetch := none }
        { method := .GET, url := "/todos", headers := [], bodyJson := none }).1 =
      .notMatched :=
  c7_relative_url_without_origin_not_matched _ _ rfl rfl

/- -------------------------------------------------------------------
Claim C8 (reset clears handlers, preserves session configuration)
------------------------------------------------------------------- -/

/-- C8: `resetHandlers` empties the registry — afterwards every request
reports not-matched — while the active origin, the unhandled-request
strategy, the listening flag and the attached adapters are unchanged. -/
theorem c8_reset_clears_handlers_preserves_config (st : SessionState) :
    (resetHandlers st).handlers = [] ∧
    (resetHandlers st).origin = st.origin ∧
    (resetHandlers st).onUnhandledRequest = st.onUnhandledRequest ∧
    (resetHandlers st).listening = st.listening ∧
    (resetHandlers st).adapters = st.adapters ∧
    ∀ req : Request, (tryHandle (resetHandlers st) req).1 = .notMatched := by
  refine ⟨rfl, rfl, rfl, rfl, rfl, fun req => ?_⟩
  unfold tryHandle
  cases hu : toRequestUrl req.url (resetHandlers st).origin with
  | none => simp [hu]
  | some u => simp [hu, resetHandlers, findHandler_nil]

/- -------------------------------------------------------------------
Claim C10 (dispatch is read-only on session state)
------------------------------------------------------------------- -/

/-- C10: `tryHandle` leaves the handler registry, the active origin, the
configured strategy and the listening flag unchanged — every branch of the
dispatcher returns the state it was given. -/
theorem c10_tryHandle_readonly (st : SessionState) (req : Request) :
    (tryHandle st req).2.handlers = st.handlers ∧
    (tryHandle st req).2.origin = st.origin ∧
    (tryHandle st req).2.onUnhandledRequest = st.onUnhandledRequest ∧
    (tryHandle st req).2.listening = st.listening := by
  have h2 : (tryHandle st req).2 = st := by
    unfold tryHandle
    cases hu : toRequestUrl req.url st.origin with
    | none => simp [hu]
    | some u =>
      simp only [hu]
      cases hf : findHandler st.handlers st.origin req.method u with
      | none => simp [hf]
      | some hp => cases hp with | mk h params => simp [hf]
  exact ⟨by rw [h2], by rw [h2], by rw [h2], by rw [h2]⟩

end Intercept
